import Mathlib

/-!
Verification development for the guonaihong/flag command-line parsing
library. The definitions below are a shallow embedding of the Go source:
`flag.go` (tokenisation, flag resolution, value dispatch, POSIX short
clusters, greedy mode, Parse), `opt.go` (the Opt/Flags/New* registration
path and flagVar), `flag_slice.go` and the value-adapter file (boolValue,
stringValue, stringSliceValue, boolSlice).

Modelling conventions:
* Go strings are modelled by Lean `String`; the source indexes strings by
  byte, the model by character, which agree on the ASCII inputs considered
  throughout.
* Pointers to bound variables are modelled by a store (`List Val`) indexed
  by a cell number; flags sharing one bound variable share the cell index.
* Go `panic` during registration is modelled by `Except.error`; runtime
  parse errors are the `GoErr` values threaded through the engine, and the
  diagnostic printing done by `failf`/`usage` (pure I/O) is not modelled.
* The regex-pattern table (`FlagSet.regex`, the `isOptOpt` branch of
  `flagVar` and the pattern step of `getFlag`) is not modelled: no claim
  below involves a pattern-keyed flag. The `RegexKeyIsValue` bit itself is
  modelled faithfully where the engine consults it.
* The unbounded loops of `parseOne`/`Parse` (the greedy `for`, the
  `goto try`, and the Parse loop) take an explicit fuel argument; `none`
  means the fuel was exhausted, which never happens in any theorem below.
-/

namespace GoFlag

/-- Adapter kinds modelled: the boolean scalar (`boolValue`, which has
`IsBoolFlag`), the string scalar (`stringValue`), the string slice
(`stringSliceValue`) and the bool slice (`boolSlice`, which does not
implement `IsBoolFlag`). -/
inductive VKind where
  | boolK
  | stringK
  | stringSliceK
  | boolSliceK
deriving DecidableEq

/-- The dynamic value stored in a bound variable cell. -/
inductive Val where
  | vBool (b : Bool)
  | vString (s : String)
  | vStringSlice (xs : List String)
  | vBoolSlice (xs : List Bool)
deriving DecidableEq

/-- Go `type Flags int` bitmask. -/
abbrev Flags := Nat

/-- `PosixShort Flags = 1 << iota` from flag.go. -/
def PosixShort : Flags := 1

/-- `GreedyMode` bit from flag.go. -/
def GreedyMode : Flags := 2

/-- `RegexKeyIsValue` bit from flag.go. -/
def RegexKeyIsValue : Flags := 4

/-- `NotValue` bit from flag.go. -/
def NotValue : Flags := 8

/-- `ErrorHandling` from flag.go. -/
inductive ErrorHandling where
  | ContinueOnError
  | ExitOnError
  | PanicOnError
deriving DecidableEq

/-- Errors produced during a parse. `errHelp`/`errVersion` model the
distinguished `ErrHelp`/`ErrVersion` values (the source compares them by
identity); `msg` models errors built by `fmt.Errorf`/`failf`. -/
inductive GoErr where
  | errHelp
  | errVersion
  | msg (s : String)
deriving DecidableEq

/-- `err.Error()`: the text of an error. -/
def GoErr.text : GoErr → String
  | .errHelp => "flag: help requested"
  | .errVersion => "flag: version requested"
  | .msg s => s

/-- One flag definition (struct `Flag` in flag.go). `usage`, `DefValue`
and the back-reference `parent` carry no parsing behaviour and are
dropped; `pointer`/`matchValue` of the `NotValue` feature are modelled by
`matchValue`. -/
structure Flag where
  name : String
  flags : Flags
  kind : VKind
  valueId : Nat
  matchValue : Option Val
deriving DecidableEq

/-- A `FlagSet` (flag.go). `output`, `Usage`, `version`, `author` only
affect diagnostics and are dropped; the regex table is not modelled. -/
structure FlagSet where
  name : String
  errorHandling : ErrorHandling
  parsed : Bool
  formal : List (String × Flag)
  shortLong : List (String × Flag)
  actual : List (String × Flag)
  args : List String
  unkownArgs : List String
  openPosixShort : Bool
  store : List Val
deriving DecidableEq

/-- Lookup in a Go map modelled as an association list. -/
def lookupA (m : List (String × Flag)) (k : String) : Option Flag :=
  match m.find? (fun p => p.1 == k) with
  | some p => some p.2
  | none => none

/-- Map insert/overwrite (`m[k] = v`). -/
def setA (m : List (String × Flag)) (k : String) (v : Flag) : List (String × Flag) :=
  match m with
  | [] => [(k, v)]
  | (k0, v0) :: t => if k0 == k then (k, v) :: t else (k0, v0) :: setA t k v

/-- Read a bound-variable cell. -/
def storeGet (st : List Val) (i : Nat) : Val :=
  (st.get? i).getD (.vString "")

/-- Write a bound-variable cell. -/
def storeSet (st : List Val) (i : Nat) (v : Val) : List Val :=
  st.set i v

/-- `strconv.ParseBool`: the exact list of accepted literals; `none` is
the error case (in which Go also returns the value `false`). -/
def strconvParseBool (s : String) : Option Bool :=
  if s == "1" || s == "t" || s == "T" || s == "true" || s == "TRUE" || s == "True" then
    some true
  else if s == "0" || s == "f" || s == "F" || s == "false" || s == "FALSE" || s == "False" then
    some false
  else
    none

/-- `strconv.FormatBool`. -/
def strconvFormatBool (b : Bool) : String :=
  if b then "true" else "false"

/-- JSON escaping of one character as in `encoding/json` (quote,
backslash and the common control characters; other control characters and
the HTML escapes do not occur in the modelled inputs). -/
def jsonEscapeChar (c : Char) : String :=
  if c = '"' then "\\\""
  else if c = '\\' then "\\\\"
  else if c = '\n' then "\\n"
  else if c = '\r' then "\\r"
  else if c = '\t' then "\\t"
  else String.mk [c]

/-- A JSON string literal for `s`. -/
def jsonQuote (s : String) : String :=
  "\"" ++ String.join (s.data.map jsonEscapeChar) ++ "\""

/-- `json.Marshal` of a `[]string` (used by `stringSliceValue.String`). -/
def jsonMarshalStrings (xs : List String) : String :=
  "[" ++ String.intercalate "," (xs.map jsonQuote) ++ "]"

/-- `json.Marshal` of a `[]bool` (used by `boolSlice.String`). -/
def jsonMarshalBools (xs : List Bool) : String :=
  "[" ++ String.intercalate "," (xs.map strconvFormatBool) ++ "]"

/-- The `Set` method of each modelled value adapter: given the current
cell contents and the text, return the new cell contents and the
`strconv` error if any. Mirrors `boolValue.Set` (which writes the parsed
value even when reporting an error), `stringValue.Set`,
`stringSliceValue.Set` (append) and `boolSlice.Set` (append, no write on
error). -/
def adapterSet (k : VKind) (cur : Val) (s : String) : Val × Option String :=
  match k with
  | .boolK =>
    match strconvParseBool s with
    | some v => (.vBool v, none)
    | none => (.vBool false, some ("strconv.ParseBool: parsing \"" ++ s ++ "\": invalid syntax"))
  | .stringK => (.vString s, none)
  | .stringSliceK =>
    match cur with
    | .vStringSlice xs => (.vStringSlice (xs ++ [s]), none)
    | _ => (.vStringSlice [s], none)
  | .boolSliceK =>
    match strconvParseBool s with
    | some v =>
      match cur with
      | .vBoolSlice xs => (.vBoolSlice (xs ++ [v]), none)
      | _ => (.vBoolSlice [v], none)
    | none => (cur, some ("strconv.ParseBool: parsing \"" ++ s ++ "\": invalid syntax"))

/-- The `String` method of each modelled value adapter. -/
def adapterString (k : VKind) (cur : Val) : String :=
  match k, cur with
  | .boolK, .vBool b => strconvFormatBool b
  | .stringK, .vString s => s
  | .stringSliceK, .vStringSlice xs => jsonMarshalStrings xs
  | .boolSliceK, .vBoolSlice xs => jsonMarshalBools xs
  | _, _ => ""

/-- `boolValue` implements `IsBoolFlag`; `boolSlice` and the others do
not. -/
def isBoolFlagKind (k : VKind) : Bool :=
  k == .boolK

/-- ASCII whitespace (Go `unicode.IsSpace` restricted to the ASCII range
used by the modelled names). -/
def isSpaceChar (c : Char) : Bool :=
  c = ' ' || c = '\t' || c = '\n' || c = '\r'

/-- Drop leading and trailing whitespace from a character list. -/
def trimSpaceChars (l : List Char) : List Char :=
  ((l.dropWhile isSpaceChar).reverse.dropWhile isSpaceChar).reverse

/-- `strings.TrimSpace`. -/
def trimSpace (s : String) : String :=
  String.mk (trimSpaceChars s.data)

/-- `strings.Split(s, ",")` on the character level: split at every comma,
keeping empty fields. -/
def splitOnCommaAux : List Char → List Char → List (List Char)
  | [], cur => [cur.reverse]
  | c :: t, cur => if c = ',' then cur.reverse :: splitOnCommaAux t [] else splitOnCommaAux t (c :: cur)

/-- `strings.Split(s, ",")`. -/
def splitOnComma (s : String) : List String :=
  (splitOnCommaAux s.data []).map String.mk

/-- Insert a string into a list sorted by length (shortest first). -/
def insertByLen (x : String) : List String → List String
  | [] => [x]
  | y :: t => if x.data.length < y.data.length then x :: y :: t else y :: insertByLen x t

/-- `sort.Slice(names, by length)` from `newName`. The source sort is
unstable, so the order of names of equal length is unspecified there; the
model uses a stable insertion sort, and no theorem below depends on the
order of equal-length aliases. -/
def sortByLen : List String → List String
  | [] => []
  | x :: t => insertByLen x (sortByLen t)

/-- `newName` (flag.go): split a comma-separated alias list into the
joined display name, the individual aliases sorted shortest first, and a
flag telling whether a comma was present. -/
def newName (name : String) : String × List String × Bool :=
  if name.data.contains ',' then
    let names := (splitOnComma name).map trimSpace
    let names := sortByLen names
    (String.intercalate ", " names, names, true)
  else
    (name, [], false)

/-- `FlagSet.alreadythereError`: silently accept redefinition of the
reserved names, otherwise abort (Go panics; modelled as `Except.error`). -/
def FlagSet.alreadythereError (f : FlagSet) (name : String) : Except String Unit :=
  if name == "h" || name == "help" || name == "V" || name == "version" then
    .ok ()
  else if f.name == "" then
    .error ("flag redefined: " ++ name)
  else
    .error (f.name ++ " flag redefined: " ++ name)

/-- Allocate a fresh bound-variable cell holding a default value (the Go
code passes a pointer into the caller's variable; the model numbers the
cells in allocation order). -/
def FlagSet.allocCell (f : FlagSet) (dv : Val) : FlagSet × Nat :=
  ({ f with store := f.store ++ [dv] }, f.store.length)

/-- The alias-insertion loop of `FlagSet.Var` (flag.go): check each alias
against `shortLong`, report collisions through `alreadythereError`, then
insert (overwriting when the redefinition was accepted). -/
def FlagSet.varAliases (f : FlagSet) (tmpl : Flag) : List String → Except String FlagSet
  | [] => .ok f
  | v :: rest => do
    if (lookupA f.shortLong v).isSome then
      f.alreadythereError v
    FlagSet.varAliases { f with shortLong := setA f.shortLong v { tmpl with name := v } } tmpl rest

/-- `FlagSet.Var` (flag.go): register a flag under `name0` with a fresh
cell initialised to `defValue`. Aliases (when the name is
comma-separated) go to the `shortLong` table, the joined name to
`formal`; the `Flag` records created here carry a zero bitmask, exactly
as in the source. -/
def FlagSet.Var (f0 : FlagSet) (kind : VKind) (defValue : Val) (name0 : String) : Except String FlagSet := do
  let (f1, cell) := f0.allocCell defValue
  let (name, names, ok) := newName name0
  let flag : Flag := { name := name, flags := 0, kind := kind, valueId := cell, matchValue := none }
  let f2 ← if ok then f1.varAliases flag names else .ok f1
  if (lookupA f2.formal name).isSome then
    f2.alreadythereError name
  .ok { f2 with formal := setA f2.formal name flag }

/-- `FlagSet.setNamesToMap` (opt.go) specialised to the `shortLong`
table: each alias gets a copy of the flag (sharing the value cell and
keeping the behavioural bits) under its own name. -/
def FlagSet.setNamesToMapShortLong (f : FlagSet) (names : List String) (flag : Flag) : Except String FlagSet :=
  match names with
  | [] => .ok f
  | v :: rest => do
    if (lookupA f.shortLong v).isSome then
      f.alreadythereError v
    FlagSet.setNamesToMapShortLong { f with shortLong := setA f.shortLong v { flag with name := v } } rest flag

/-- `FlagSet.flagVar` (opt.go): finalise a flag built through the
`Opt`/`Flags`/`New*` path. Rejects the PosixShort+GreedyMode combination
up front; the `isOptOpt` (regex-pattern) branch is not modelled. -/
def FlagSet.flagVar (f : FlagSet) (flag : Flag) : Except String FlagSet := do
  if flag.flags &&& PosixShort > 0 && flag.flags &&& GreedyMode > 0 then
    throw "Cannot set both PosixShort and GreedyMode"
  let (name, names, ok) := newName flag.name
  let f1 ← if ok then f.setNamesToMapShortLong names flag else .ok f
  let flag1 : Flag := { flag with name := name }
  if (lookupA f1.formal name).isSome then
    f1.alreadythereError name
  .ok { f1 with formal := setA f1.formal name flag1 }

/-- An in-progress registration: `FlagSet.Opt` returns a `*Flag` holding
the name and a parent pointer; the model carries the parent state. `usage`
is display-only and dropped. -/
structure Opted where
  fs : FlagSet
  name : String
  flags : Flags

/-- `FlagSet.Opt` (opt.go). -/
def FlagSet.Opt (f : FlagSet) (name : String) (_usage : String) : Opted :=
  { fs := f, name := name, flags := 0 }

/-- `Flag.Flags` (opt.go): OR bits into the bitmask; a PosixShort bit also
switches the parent FlagSet into POSIX-cluster mode. -/
def Opted.Flags (o : Opted) (fl : Flags) : Opted :=
  let fs := if fl &&& PosixShort == PosixShort then { o.fs with openPosixShort := true } else o.fs
  { o with fs := fs, flags := o.flags ||| fl }

/-- `Flag.NewBool` (opt.go): bind a fresh bool cell and finalise. -/
def Opted.NewBool (o : Opted) (defValue : Bool) : Except String FlagSet :=
  let (f, cell) := o.fs.allocCell (.vBool defValue)
  f.flagVar { name := o.name, flags := o.flags, kind := .boolK, valueId := cell, matchValue := none }

/-- `Flag.NewString` (opt.go). -/
def Opted.NewString (o : Opted) (defValue : String) : Except String FlagSet :=
  let (f, cell) := o.fs.allocCell (.vString defValue)
  f.flagVar { name := o.name, flags := o.flags, kind := .stringK, valueId := cell, matchValue := none }

/-- `Flag.NewStringSlice` (opt.go). -/
def Opted.NewStringSlice (o : Opted) (defValue : List String) : Except String FlagSet :=
  let (f, cell) := o.fs.allocCell (.vStringSlice defValue)
  f.flagVar { name := o.name, flags := o.flags, kind := .stringSliceK, valueId := cell, matchValue := none }

/-- `Flag.NewBoolSlice` (opt.go). -/
def Opted.NewBoolSlice (o : Opted) (defValue : List Bool) : Except String FlagSet :=
  let (f, cell) := o.fs.allocCell (.vBoolSlice defValue)
  f.flagVar { name := o.name, flags := o.flags, kind := .boolSliceK, valueId := cell, matchValue := none }

/-- An empty FlagSet before `generatedOpt` runs. -/
def FlagSet.base (name : String) (eh : ErrorHandling) : FlagSet :=
  { name := name, errorHandling := eh, parsed := false, formal := [], shortLong := [],
    actual := [], args := [], unkownArgs := [], openPosixShort := false, store := [] }

/-- Extract the state from a registration that is known to succeed (used
only where the registered names are fresh, so the error branch is
unreachable). -/
def regOk (r : Except String FlagSet) (d : FlagSet) : FlagSet :=
  match r with
  | .ok f => f
  | .error _ => d

/-- `generatedOpt` (flag.go): the auto-registered help and version flags. -/
def FlagSet.generatedOpt (f : FlagSet) : Except String FlagSet := do
  let f1 ← f.Var .boolK (.vBool false) "h, help"
  f1.Var .boolK (.vBool false) "V, version"

/-- `NewFlagSet` (flag.go): fresh set plus `generatedOpt` (which cannot
collide on an empty set, so the `regOk` fallback is unreachable). -/
def NewFlagSet (name : String) (eh : ErrorHandling) : FlagSet :=
  regOk ((FlagSet.base name eh).generatedOpt) (FlagSet.base name eh)

/-- Scan for the first character equal to a separator, returning the
part before it and the part after it. -/
def splitAtEq : List Char → Option (List Char × List Char)
  | [] => none
  | c :: t =>
    if c = '=' then
      some ([], t)
    else
      match splitAtEq t with
      | some (a, b) => some (c :: a, b)
      | none => none

/-- `parseNameValue` (flag.go): split a stripped token on the first `=`
starting from index 1 (an equals sign cannot be first). Returns the name,
whether an explicit value was present, and the value. -/
def parseNameValue (name : String) : String × Bool × String :=
  match name.data with
  | [] => (name, false, "")
  | c0 :: rest =>
    match splitAtEq rest with
    | some (pre, post) => (String.mk (c0 :: pre), true, String.mk post)
    | none => (name, false, "")

/-- `failf` (flag.go) builds the error; its diagnostic printing and the
usage dump are I/O and not modelled. -/
def FlagSet.failf (_f : FlagSet) (s : String) : GoErr :=
  .msg s

/-- Result of `FlagSet.getName`: the Go function communicates through two
pointer out-parameters (`numMinuses`, `name`), three results
(`next`, `seen`, `err`) and mutation of `f.args`/`f.unkownArgs`. -/
structure NameRes where
  next : Bool
  seen : Bool
  err : Option GoErr
  numMinuses : Nat
  name : String
  fs : FlagSet
deriving DecidableEq

/-- `FlagSet.getName` (flag.go): classify the next token. A short or
dash-less token is consumed as positional (deferred instead when the
caller is in greedy mode); `--` is consumed and terminates; otherwise one
or two dashes are stripped and a malformed remainder is an error. -/
def FlagSet.getName (f : FlagSet) (flags : Flags) : NameRes :=
  match f.args with
  | [] => { next := false, seen := false, err := none, numMinuses := 0, name := "", fs := f }
  | s :: rest =>
    if s.data.length < 2 || s.data.head? != some '-' then
      let f1 := if flags &&& GreedyMode ≠ GreedyMode then { f with unkownArgs := f.unkownArgs ++ [s] } else f
      { next := false, seen := true, err := none, numMinuses := 0, name := s, fs := { f1 with args := rest } }
    else if s.data.get? 1 = some '-' then
      if s.data.length = 2 then
        { next := false, seen := false, err := none, numMinuses := 2, name := "", fs := { f with args := rest } }
      else
        let name := String.mk (s.data.drop 2)
        if name.data.length = 0 || name.data.head? = some '-' || name.data.head? = some '=' then
          { next := false, seen := false, err := some (f.failf ("bad flag syntax: " ++ s)), numMinuses := 2, name := name, fs := f }
        else
          { next := true, seen := true, err := none, numMinuses := 2, name := name, fs := f }
    else
      let name := String.mk (s.data.drop 1)
      if name.data.length = 0 || name.data.head? = some '-' || name.data.head? = some '=' then
        { next := false, seen := false, err := some (f.failf ("bad flag syntax: " ++ s)), numMinuses := 1, name := name, fs := f }
      else
        { next := true, seen := true, err := none, numMinuses := 1, name := name, fs := f }

/-- `FlagSet.setValue` (flag.go), the value-dispatch core. Branches in
source order: `NotValue` fixed assignment, the `boolFlag` special case,
the `boolSlice` special case, then the generic value-taking path that may
consume the next argument. Returns (`seen`, error) and the new state. -/
def FlagSet.setValue (f : FlagSet) (flag : Flag) (name : String) (hasValue : Bool) (value : String) : (Bool × Option GoErr) × FlagSet :=
  if flag.flags &&& NotValue > 0 then
    match flag.matchValue with
    | some mv => ((true, none), { f with store := storeSet f.store flag.valueId mv })
    | none =>
      -- Go dereferences a nil pointer here (a flag given the NotValue bit
      -- without MatchVar); modelled as a runtime error, never reached below
      ((false, some (.msg "runtime error: invalid memory address or nil pointer dereference")), f)
  else if isBoolFlagKind flag.kind then
    if hasValue then
      match adapterSet flag.kind (storeGet f.store flag.valueId) value with
      | (v1, none) => ((true, none), { f with store := storeSet f.store flag.valueId v1 })
      | (v1, some e) =>
        ((false, some (f.failf ("invalid boolean value \"" ++ value ++ "\" for -" ++ name ++ ": " ++ e))),
          { f with store := storeSet f.store flag.valueId v1 })
    else
      match adapterSet flag.kind (storeGet f.store flag.valueId) "true" with
      | (v1, none) => ((true, none), { f with store := storeSet f.store flag.valueId v1 })
      | (v1, some e) =>
        ((false, some (f.failf ("invalid boolean flag " ++ name ++ ": " ++ e))),
          { f with store := storeSet f.store flag.valueId v1 })
  else if flag.kind == .boolSliceK then
    match adapterSet flag.kind (storeGet f.store flag.valueId) "true" with
    | (v1, none) => ((true, none), { f with store := storeSet f.store flag.valueId v1 })
    | (_, some e) => ((false, some (f.failf ("invalid boolean flag " ++ name ++ ": " ++ e))), f)
  else
    let (hasValue1, value1, f1) :=
      if !hasValue then
        match f.args with
        | a :: rest => (true, a, { f with args := rest })
        | [] => (hasValue, value, f)
      else (hasValue, value, f)
    if !hasValue1 then
      ((false, some (f1.failf ("flag needs an argument: -" ++ name))), f1)
    else
      match adapterSet flag.kind (storeGet f1.store flag.valueId) value1 with
      | (v1, none) => ((true, none), { f1 with store := storeSet f1.store flag.valueId v1 })
      | (v1, some e) =>
        ((false, some (f1.failf ("invalid value \"" ++ value1 ++ "\" for flag -" ++ name ++ ": " ++ e))),
          { f1 with store := storeSet f1.store flag.valueId v1 })

/-- `FlagSet.setFlag` (flag.go): apply the value and on success record the
flag in the `actual` (seen) table under `name`. -/
def FlagSet.setFlag (f : FlagSet) (flag : Flag) (name : String) (hasValue : Bool) (value : String) : (Bool × Option GoErr) × FlagSet :=
  match f.setValue flag name hasValue value with
  | ((seen, some e), f1) => ((seen, some e), f1)
  | ((_, none), f1) => ((true, none), { f1 with actual := setA f1.actual name flag })

/-- `FlagSet.getFlag` (flag.go): the reserved help/version names
short-circuit before any table lookup; then the `formal` table, then
`shortLong`. The regex-pattern step is not modelled (no pattern flags in
the modelled scenarios). -/
def FlagSet.getFlag (f : FlagSet) (name : String) : Option Flag × Bool × Option GoErr :=
  if name == "help" || name == "h" then
    (none, false, some .errHelp)
  else if name == "version" || name == "V" then
    (none, false, some .errVersion)
  else
    match lookupA f.formal name with
    | some fl => (some fl, true, none)
    | none =>
      match lookupA f.shortLong name with
      | some fl => (some fl, true, none)
      | none => (none, false, some (.msg ("flag provided but not defined: -" ++ name)))

/-- The character loop of `FlagSet.setPosixShortOpt` (flag.go): scan the
stripped token character by character. A character that resolves to a
cluster-eligible flag is set: booleans consume just the character; a
value-taking flag takes the (nonempty) remainder as a glued value, or,
when it is the last character, consumes the next argument and stops the
scan. Note the source does not stop after a glued value: the loop keeps
scanning the remaining characters. -/
def FlagSet.posixLoop (f : FlagSet) (rest : List Char) (count : Nat) : (Bool × Bool × Option GoErr) × FlagSet :=
  match rest with
  | [] =>
    if count > 0 then ((false, true, none), f) else ((true, true, none), f)
  | c :: tail =>
    let newNm := String.mk [c]
    match f.getFlag newNm with
    | (some flag, _, none) =>
      if flag.flags &&& PosixShort == 0 then
        f.posixLoop tail count
      else
        let hv0 : Bool × String × Bool :=
          if isBoolFlagKind flag.kind then (false, "", true)
          else if tail.length ≠ 0 then (true, String.mk tail, false)
          else (false, "", false)
        let hasValue := hv0.1
        let value := hv0.2.1
        let isBool := hv0.2.2
        let hv1 : Bool × String :=
          if flag.flags &&& RegexKeyIsValue > 0 then (true, String.mk (c :: tail)) else (hasValue, value)
        match f.setFlag flag newNm hv1.1 hv1.2 with
        | ((seen, some e), f1) => ((false, seen, some e), f1)
        | ((_, none), f1) =>
          if !isBool && !hv1.1 then ((false, true, none), f1)
          else f1.posixLoop tail (count + 1)
    | (_, _, _) => f.posixLoop tail count

/-- `FlagSet.setPosixShortOpt` (flag.go). -/
def FlagSet.setPosixShortOpt (f : FlagSet) (_numMinuses : Nat) (name : String) : (Bool × Bool × Option GoErr) × FlagSet :=
  f.posixLoop name.data 0

/-- `FlagSet.setPosix` (flag.go): the fallback taken when a token did not
resolve to a flag. `ErrHelp` propagates; otherwise, when the set is in
POSIX mode and the token had a single dash, try cluster resolution; if
that reports nothing matched (or POSIX handling is not applicable) the
original error is re-reported through `failf`. -/
def FlagSet.setPosix (f : FlagSet) (seen : Bool) (err : GoErr) (numMinuses : Nat) (name : String) : (Bool × Bool × Option GoErr) × FlagSet :=
  if err = .errHelp then
    ((false, false, some .errHelp), f)
  else if !f.openPosixShort then
    ((false, seen, some err), f)
  else if numMinuses = 1 then
    match f.setPosixShortOpt numMinuses name with
    | ((next, s2, e2), f1) =>
      if !next then ((next, s2, e2), f1)
      else ((false, false, some (f1.failf err.text)), f1)
  else
    ((false, false, some (f.failf err.text)), f)

/-- The code of `parseOne` from the label `try` onward (flag.go),
including the greedy `for`-loop and the `goto try` re-entry, written as
fuel recursion. One recursive self-call is one iteration of the greedy
loop (re-checking the loop condition, which coincides with re-testing the
greedy bit for the same flag); the `goto try` is the self-call with the
newly resolved flag. `none` is fuel exhaustion. -/
def FlagSet.tryStep (fuel : Nat) (f : FlagSet) (flag : Flag) (name : String) (hasValue : Bool) (value : String) : Option ((Bool × Option GoErr) × FlagSet) :=
  match fuel with
  | 0 => none
  | fuel + 1 =>
    if flag.flags &&& GreedyMode > 0 && !f.args.isEmpty then
      -- one iteration of the greedy for-loop; the loop body first zeroes
      -- `name` and calls setFlag with it
      match f.setFlag flag "" hasValue value with
      | ((seen, some e), f1) => some ((seen, some e), f1)
      | ((_, none), f1) =>
        let r := f1.getName GreedyMode
        if !r.seen then
          some ((r.seen, r.err), r.fs)
        else if r.next then
          let nv := parseNameValue r.name
          match r.fs.getFlag nv.1 with
          | (some flag2, _, none) =>
            FlagSet.tryStep fuel { r.fs with args := r.fs.args.tail } flag2 nv.1 nv.2.1 nv.2.2
          | (_, s2, some e0) =>
            match r.fs.setPosix s2 e0 r.numMinuses nv.1 with
            | ((next2, s3, e3), f3) =>
              if !next2 then some ((s3, e3), f3)
              else none -- unreachable: setPosix never returns next = true
          | (none, _, none) => none -- unreachable: getFlag reports an error when not found
        else
          -- a bare token was consumed: it becomes the pending value
          FlagSet.tryStep fuel r.fs flag r.name true r.name
    else
      -- fall-through after the greedy loop (or for a non-greedy flag)
      let hv1 : Bool × String :=
        if flag.flags &&& RegexKeyIsValue > 0 then (true, name) else (hasValue, value)
      some (f.setFlag flag name hv1.1 hv1.2)

/-- `FlagSet.parseOne` (flag.go): classify the next token, resolve the
flag (with the POSIX-cluster fallback) and dispatch to `tryStep`. -/
def FlagSet.parseOne (fuel : Nat) (f : FlagSet) : Option ((Bool × Option GoErr) × FlagSet) :=
  let r := f.getName 0
  if !r.next then
    some ((r.seen, r.err), r.fs)
  else
    let f1 := { r.fs with args := r.fs.args.tail }
    let nv := parseNameValue r.name
    match f1.getFlag nv.1 with
    | (some flag, _, none) => f1.tryStep fuel flag nv.1 nv.2.1 nv.2.2
    | (_, seen0, some e0) =>
      match f1.setPosix seen0 e0 r.numMinuses nv.1 with
      | ((next2, s2, e2), f2) =>
        if !next2 then some ((s2, e2), f2)
        else none -- unreachable: setPosix never returns next = true
    | (none, _, none) => none -- unreachable: getFlag reports an error when not found

/-- How a `Parse` call ends: normally, returning an error
(ContinueOnError), `os.Exit(2)` (ExitOnError), or a panic
(PanicOnError). -/
inductive Outcome where
  | normal
  | errored (e : GoErr)
  | exited (code : Nat)
  | panicked (e : GoErr)
deriving DecidableEq

/-- The loop of `FlagSet.Parse` (flag.go): repeat `parseOne` while a flag
was seen; a nil error ends the loop normally, otherwise the configured
error-handling policy applies. -/
def FlagSet.parseLoop (fuel : Nat) (f : FlagSet) : Option (Outcome × FlagSet) :=
  match fuel with
  | 0 => none
  | fuel + 1 =>
    match f.parseOne fuel with
    | none => none
    | some ((seen, err), f1) =>
      if seen then
        f1.parseLoop fuel
      else
        match err with
        | none => some (.normal, f1)
        | some e =>
          match f1.errorHandling with
          | .ContinueOnError => some (.errored e, f1)
          | .ExitOnError => some (.exited 2, f1)
          | .PanicOnError => some (.panicked e, f1)

/-- `FlagSet.Parse` (flag.go): record `parsed`, install the argument
list, run the loop, and apply the deferred
`f.args = append(f.unkownArgs, f.args...)` — which runs on normal return,
error return and panic, but not after `os.Exit`. -/
def FlagSet.Parse (f : FlagSet) (fuel : Nat) (arguments : List String) : Option (Outcome × FlagSet) :=
  let f1 := { f with parsed := true, args := arguments }
  match f1.parseLoop fuel with
  | none => none
  | some (o, f2) =>
    match o with
    | .exited c => some (.exited c, f2)
    | _ => some (o, { f2 with args := f2.unkownArgs ++ f2.args })

/-! ### Derived predicates and concrete fixtures used by the theorems -/

/-- A well-formed registered flag name for the purposes of the theorems:
nonempty, not starting with a dash or an equals sign, and containing no
equals sign (so that `-name` is a well-formed token and `parseNameValue`
splits `-name=v` at the intended position). -/
def plainName (name : String) : Bool :=
  !name.data.isEmpty && name.data.head? != some '-' && name.data.head? != some '=' &&
    !name.data.contains '='

/-- A token the classifier treats as bare/positional: shorter than two
characters or not starting with a dash. -/
def isBareTok (s : String) : Bool :=
  s.data.length < 2 || s.data.head? != some '-'

/-- Whether a registration call completed without the Go panic. -/
def isOkE (r : Except String FlagSet) : Bool :=
  match r with
  | .ok _ => true
  | .error _ => false

/-- The reserved names exempted from duplicate-registration panics. -/
def reservedName (name : String) : Bool :=
  name == "h" || name == "help" || name == "V" || name == "version"

/-- Fixture: FlagSet with a POSIX-cluster string flag `A` and a
POSIX-cluster bool flag `v` (grep-style), registered through the
`Opt`/`Flags`/`New*` path. Cells: 0 = help, 1 = version, 2 = A, 3 = v. -/
def fsC1 : FlagSet :=
  let f0 := NewFlagSet "w" .ContinueOnError
  let f1 := regOk (((f0.Opt "A" "").Flags PosixShort).NewString "") f0
  regOk (((f1.Opt "v" "").Flags PosixShort).NewBool false) f1

/-- The registered `A` flag of `fsC1`. -/
def flagC1A : Flag :=
  { name := "A", flags := PosixShort, kind := .stringK, valueId := 2, matchValue := none }

/-- Fixture: FlagSet with a greedy string-slice flag `H` and a plain bool
flag `other`. Cells: 0 = help, 1 = version, 2 = H, 3 = other. -/
def fsC2 : FlagSet :=
  let f0 := NewFlagSet "t" .ContinueOnError
  let f1 := regOk (((f0.Opt "H" "").Flags GreedyMode).NewStringSlice []) f0
  regOk ((f1.Opt "other" "").NewBool false) f1

/-- The registered `H` flag of `fsC2`. -/
def flagC2H : Flag :=
  { name := "H", flags := GreedyMode, kind := .stringSliceK, valueId := 2, matchValue := none }

/-- The registered `other` flag of `fsC2`. -/
def flagC2Other : Flag :=
  { name := "other", flags := 0, kind := .boolK, valueId := 3, matchValue := none }

/-- The state of `fsC2` in the middle of the greedy loop: `H` has
collected `acc`, the pending argument list is `rest`, and the greedy
`setFlag` calls have recorded the flag under the empty name. -/
def c2mid (acc : List String) (rest : List String) : FlagSet :=
  { fsC2 with parsed := true, actual := [("", flagC2H)], args := rest,
              store := [.vBool false, .vBool false, .vStringSlice acc, .vBool false] }

/-- The state reached after the greedy run collected `acc` and `--other`
was matched. -/
def c2post (acc : List String) : FlagSet :=
  { fsC2 with parsed := true, actual := [("", flagC2H), ("other", flagC2Other)], args := [],
              store := [.vBool false, .vBool false, .vStringSlice acc, .vBool true] }

/-- Fixture: a greedy *bool* flag `b` (legal: only PosixShort+Greedy is
rejected). Cells: 0 = help, 1 = version, 2 = b. -/
def fsC3cex : FlagSet :=
  let f0 := NewFlagSet "w" .ContinueOnError
  regOk (((f0.Opt "b" "").Flags GreedyMode).NewBool false) f0

/-- Fixture: a plain bool flag `b` registered through `Var`. -/
def fsW3 : FlagSet :=
  regOk ((NewFlagSet "w" .ContinueOnError).Var .boolK (.vBool false) "b") (FlagSet.base "w" .ContinueOnError)

/-- The registered `b` flag of `fsW3`. -/
def flagW3 : Flag :=
  { name := "b", flags := 0, kind := .boolK, valueId := 2, matchValue := none }

/-- Fixture: a plain string flag `file` registered through `Var`. -/
def fsW4 : FlagSet :=
  regOk ((NewFlagSet "w" .ContinueOnError).Var .stringK (.vString "") "file") (FlagSet.base "w" .ContinueOnError)

/-- The registered `file` flag of `fsW4`. -/
def flagW4 : Flag :=
  { name := "file", flags := 0, kind := .stringK, valueId := 2, matchValue := none }

/-- Fixture: FlagSet with a plain string flag `x` registered (for the
duplicate-registration claims). -/
def fsW7 : FlagSet :=
  regOk ((NewFlagSet "w" .ContinueOnError).Var .stringK (.vString "") "x") (FlagSet.base "w" .ContinueOnError)

/-- Fixture: FlagSet with the reserved name `help` registered once
through `Var` (on top of the auto-registered `h, help`). -/
def fsW7help : FlagSet :=
  regOk ((NewFlagSet "w" .ContinueOnError).Var .boolK (.vBool false) "help") (FlagSet.base "w" .ContinueOnError)

/-- Fixture: a greedy bool-slice flag `v`. Cells: 0 = help, 1 = version,
2 = v. -/
def fsC10cex : FlagSet :=
  let f0 := NewFlagSet "w" .ContinueOnError
  regOk (((f0.Opt "v" "").Flags GreedyMode).NewBoolSlice []) f0

/-- Fixture: a plain bool-slice flag `v` registered through `Var`. -/
def fsW10 : FlagSet :=
  regOk ((NewFlagSet "w" .ContinueOnError).Var .boolSliceK (.vBoolSlice []) "v") (FlagSet.base "w" .ContinueOnError)

/-- The registered `v` flag of `fsW10`. -/
def flagW10 : Flag :=
  { name := "v", flags := 0, kind := .boolSliceK, valueId := 2, matchValue := none }

/-! ### Helper lemmas about the token classifier and the adapters -/

theorem adapterSet_bool_true (cur : Val) : adapterSet .boolK cur "true" = (.vBool true, none) := rfl

theorem adapterSet_bool_false (cur : Val) : adapterSet .boolK cur "false" = (.vBool false, none) := rfl

theorem adapterSet_boolSlice_true (xs : List Bool) :
    adapterSet .boolSliceK (.vBoolSlice xs) "true" = (.vBoolSlice (xs ++ [true]), none) := rfl

theorem adapterSet_stringSlice (xs : List String) (s : String) :
    adapterSet .stringSliceK (.vStringSlice xs) s = (.vStringSlice (xs ++ [s]), none) := rfl

theorem adapterSet_string (cur : Val) (s : String) :
    adapterSet .stringK cur s = (.vString s, none) := rfl

/-- `getName` on a well-formed single-dash token `-name`: classified as a
flag token, not consumed, one minus counted. -/
theorem getName_plain (f : FlagSet) (flags : Flags) (name : String) (rest : List String)
    (hp : plainName name = true) (hargs : f.args = ("-" ++ name) :: rest) :
    f.getName flags =
      { next := true, seen := true, err := none, numMinuses := 1, name := name, fs := f } := by
  have hd : ("-" ++ name).data = '-' :: name.data := by
    rw [String.data_append]; rfl
  simp only [plainName, Bool.and_eq_true, Bool.not_eq_true'] at hp
  obtain ⟨⟨⟨h1, h2⟩, h3⟩, h4⟩ := hp
  obtain ⟨c, t, hD⟩ : ∃ c t, name.data = c :: t := by
    cases hE : name.data with
    | nil => rw [hE] at h1; exact absurd h1 (by decide)
    | cons a b => exact ⟨a, b, rfl⟩
  rw [hD] at h2 h3
  simp only [List.head?_cons, bne_iff_ne, ne_eq, Option.some.injEq] at h2 h3
  have c1 : (decide (("-" ++ name).data.length < 2) || ("-" ++ name).data.head? != some '-') = false := by
    rw [hd, hD]
    simp only [List.length_cons, List.head?_cons, Bool.or_eq_false_iff,
      decide_eq_false_iff_not, bne_self_eq_false, and_true]
    omega
  have c2 : ("-" ++ name).data.get? 1 = some '-' ↔ False := by
    rw [hd, hD]
    simp only [List.get?_cons_succ, List.get?_cons_zero, Option.some.injEq, iff_false]
    exact h2
  have c3 : (decide ((String.mk (("-" ++ name).data.drop 1)).data.length = 0) ||
      decide ((String.mk (("-" ++ name).data.drop 1)).data.head? = some '-') ||
      decide ((String.mk (("-" ++ name).data.drop 1)).data.head? = some '=')) = false := by
    rw [hd, hD]
    simp only [List.drop_succ_cons, List.drop_zero, String.mk]
    simp only [List.length_cons, List.head?_cons, Bool.or_eq_false_iff, decide_eq_false_iff_not,
      Option.some.injEq]
    exact ⟨⟨by omega, h2⟩, h3⟩
  unfold FlagSet.getName
  rw [hargs]
  simp only [c1, Bool.false_eq_true, if_false, c2, if_false, eq_iff_iff, iff_false, c3]
  have heta : ({ data := List.drop 1 ("-" ++ name).data } : String) = name := by
    rw [hd]
    rfl
  rw [heta]

/-- `getName` on a well-formed single-dash token with an inline value,
`-name=v`. -/
theorem getName_plainEq (f : FlagSet) (flags : Flags) (name v : String) (rest : List String)
    (hp : plainName name = true) (hargs : f.args = ("-" ++ name ++ "=" ++ v) :: rest) :
    f.getName flags =
      { next := true, seen := true, err := none, numMinuses := 1,
        name := String.mk (name.data ++ '=' :: v.data), fs := f } := by
  have hd : ("-" ++ name ++ "=" ++ v).data = '-' :: (name.data ++ '=' :: v.data) := by
    simp only [String.data_append, List.append_assoc]
    rfl
  simp only [plainName, Bool.and_eq_true, Bool.not_eq_true'] at hp
  obtain ⟨⟨⟨h1, h2⟩, h3⟩, h4⟩ := hp
  obtain ⟨c, t, hD⟩ : ∃ c t, name.data = c :: t := by
    cases hE : name.data with
    | nil => rw [hE] at h1; exact absurd h1 (by decide)
    | cons a b => exact ⟨a, b, rfl⟩
  rw [hD] at h2 h3
  simp only [List.head?_cons, bne_iff_ne, ne_eq, Option.some.injEq] at h2 h3
  have c1 : (decide (("-" ++ name ++ "=" ++ v).data.length < 2) ||
      ("-" ++ name ++ "=" ++ v).data.head? != some '-') = false := by
    rw [hd, hD]
    simp only [List.cons_append, List.length_cons, List.head?_cons, Bool.or_eq_false_iff,
      decide_eq_false_iff_not, bne_self_eq_false, and_true]
    simp only [List.length_append, List.length_cons]
    omega
  have c2 : ("-" ++ name ++ "=" ++ v).data.get? 1 = some '-' ↔ False := by
    rw [hd, hD]
    simp only [List.cons_append, List.get?_cons_succ, List.get?_cons_zero, Option.some.injEq,
      iff_false]
    exact h2
  have c3 : (decide ((String.mk (("-" ++ name ++ "=" ++ v).data.drop 1)).data.length = 0) ||
      decide ((String.mk (("-" ++ name ++ "=" ++ v).data.drop 1)).data.head? = some '-') ||
      decide ((String.mk (("-" ++ name ++ "=" ++ v).data.drop 1)).data.head? = some '=')) = false := by
    rw [hd, hD]
    simp only [List.drop_succ_cons, List.drop_zero, String.mk, List.cons_append,
      List.length_cons, List.head?_cons, Bool.or_eq_false_iff, decide_eq_false_iff_not,
      Option.some.injEq]
    exact ⟨⟨by omega, h2⟩, h3⟩
  unfold FlagSet.getName
  rw [hargs]
  simp only [c1, Bool.false_eq_true, if_false, c2, if_false, eq_iff_iff, iff_false, c3]
  have heta : ({ data := List.drop 1 ("-" ++ name ++ "=" ++ v).data } : String) =
      String.mk (name.data ++ '=' :: v.data) := by
    rw [hd]
    rfl
  rw [heta]

/-- `getName` in greedy mode on a bare token: consumed, deferred to the
greedy consumer (not recorded as unknown). -/
theorem getName_bare_greedy (f : FlagSet) (x : String) (rest : List String)
    (hb : isBareTok x = true) (hargs : f.args = x :: rest) :
    f.getName GreedyMode =
      { next := false, seen := true, err := none, numMinuses := 0, name := x,
        fs := { f with args := rest } } := by
  unfold isBareTok at hb
  unfold FlagSet.getName
  rw [hargs]
  simp only [hb, if_true]
  have hgm : (GreedyMode &&& GreedyMode ≠ GreedyMode) = False := by
    simp [GreedyMode]
  simp only [hgm, if_false]

theorem splitAtEq_not_mem (l : List Char) (h : l.contains '=' = false) : splitAtEq l = none := by
  induction l with
  | nil => rfl
  | cons c t ih =>
    simp only [List.contains_cons, Bool.or_eq_false_iff, beq_eq_false_iff_ne, ne_eq] at h
    unfold splitAtEq
    rw [if_neg (fun h0 => h.1 h0.symm), ih h.2]

theorem splitAtEq_append (l r : List Char) (h : l.contains '=' = false) :
    splitAtEq (l ++ '=' :: r) = some (l, r) := by
  induction l with
  | nil => rfl
  | cons c t ih =>
    simp only [List.contains_cons, Bool.or_eq_false_iff, beq_eq_false_iff_ne, ne_eq] at h
    simp only [List.cons_append]
    unfold splitAtEq
    rw [if_neg (fun h0 => h.1 h0.symm), ih h.2]

/-- `parseNameValue` on a name without an equals sign. -/
theorem parseNameValue_plain (name : String) (hp : plainName name = true) :
    parseNameValue name = (name, false, "") := by
  simp only [plainName, Bool.and_eq_true, Bool.not_eq_true'] at hp
  obtain ⟨⟨⟨h1, h2⟩, h3⟩, h4⟩ := hp
  obtain ⟨c, t, hD⟩ : ∃ c t, name.data = c :: t := by
    cases hE : name.data with
    | nil => rw [hE] at h1; exact absurd h1 (by decide)
    | cons a b => exact ⟨a, b, rfl⟩
  have ht : t.contains '=' = false := by
    rw [hD] at h4
    simp only [List.contains_cons, Bool.or_eq_false_iff] at h4
    exact h4.2
  unfold parseNameValue
  rw [hD]
  show (match splitAtEq t with
    | some (pre, post) => (({ data := c :: pre } : String), true, ({ data := post } : String))
    | none => (name, false, "")) = (name, false, "")
  rw [splitAtEq_not_mem t ht]

/-- `parseNameValue` splits `name=v` at the first equals sign. -/
theorem parseNameValue_plainEq (name v : String) (hp : plainName name = true) :
    parseNameValue (String.mk (name.data ++ '=' :: v.data)) = (name, true, v) := by
  simp only [plainName, Bool.and_eq_true, Bool.not_eq_true'] at hp
  obtain ⟨⟨⟨h1, h2⟩, h3⟩, h4⟩ := hp
  obtain ⟨c, t, hD⟩ : ∃ c t, name.data = c :: t := by
    cases hE : name.data with
    | nil => rw [hE] at h1; exact absurd h1 (by decide)
    | cons a b => exact ⟨a, b, rfl⟩
  have ht : t.contains '=' = false := by
    rw [hD] at h4
    simp only [List.contains_cons, Bool.or_eq_false_iff] at h4
    exact h4.2
  unfold parseNameValue
  simp only [String.mk, hD, List.cons_append]
  rw [splitAtEq_append t v.data ht]
  show (({ data := c :: t } : String), true, ({ data := v.data } : String)) = (name, true, v)
  rw [← hD]

/-- `getFlag` depends only on the two lookup tables. -/
theorem getFlag_congr (f g : FlagSet) (n : String) (h1 : f.formal = g.formal)
    (h2 : f.shortLong = g.shortLong) : f.getFlag n = g.getFlag n := by
  unfold FlagSet.getFlag
  rw [h1, h2]

/-! ### Claim theorems -/

/-- C3 (counterexample): the claim says a flag bound to a boolean adapter
never consumes a following bare token. For a boolean flag registered with
the Greedy bit (`fsC3cex`), parsing `-b x` consumes `x` (the final
positional list is empty, not `["x"]`) and fails trying to parse `x` as a
boolean — contradicting the claim's prediction of a normal parse with `x`
left positional. -/
theorem claim_C3_counterexample :
    (fsC3cex.Parse 5 ["-b", "x"]).map (fun p => (p.1 == Outcome.normal, p.2.args)) =
      some (false, []) := by
  decide

/-- C3 (amended): for every flag resolved to a boolean adapter whose
behavioural bits include none of Greedy, Not-a-value and
Regex-key-is-value, parsing the single token `-name` sets the bound value
to true, parsing `-name=false` sets it to false, and in both cases the
following tokens are left untouched (a following bare token is never
consumed as the flag's value). -/
theorem claim_C3_theorem (f : FlagSet) (flag : Flag) (name : String) (rest : List String) (fuel : Nat)
    (hget : f.getFlag name = (some flag, true, none))
    (hkind : flag.kind = .boolK)
    (hg : flag.flags &&& GreedyMode = 0)
    (hnv : flag.flags &&& NotValue = 0)
    (hrk : flag.flags &&& RegexKeyIsValue = 0)
    (hplain : plainName name = true) :
    FlagSet.parseOne (fuel + 1) { f with args := ("-" ++ name) :: rest } =
      some ((true, none),
        { f with args := rest,
                 actual := setA f.actual name flag,
                 store := storeSet f.store flag.valueId (.vBool true) }) ∧
    FlagSet.parseOne (fuel + 1) { f with args := ("-" ++ name ++ "=" ++ "false") :: rest } =
      some ((true, none),
        { f with args := rest,
                 actual := setA f.actual name flag,
                 store := storeSet f.store flag.valueId (.vBool false) }) := by
  constructor
  · unfold FlagSet.parseOne
    rw [getName_plain _ _ name rest hplain rfl]
    simp only [Bool.not_true, Bool.false_eq_true, if_false]
    rw [parseNameValue_plain name hplain]
    simp only [List.tail_cons]
    have hg2 : ({ f with args := rest } : FlagSet).getFlag name = (some flag, true, none) :=
      (getFlag_congr _ f name rfl rfl).trans hget
    rw [hg2]
    simp only [FlagSet.tryStep, hg, hrk, hnv, hkind, FlagSet.setFlag, FlagSet.setValue,
      isBoolFlagKind, adapterSet_bool_true]
    norm_num [adapterSet_bool_true]
  · unfold FlagSet.parseOne
    rw [getName_plainEq _ _ name "false" rest hplain rfl]
    simp only [Bool.not_true, Bool.false_eq_true, if_false]
    rw [parseNameValue_plainEq name "false" hplain]
    simp only [List.tail_cons]
    have hg2 : ({ f with args := rest } : FlagSet).getFlag name = (some flag, true, none) :=
      (getFlag_congr _ f name rfl rfl).trans hget
    rw [hg2]
    simp only [FlagSet.tryStep, hg, hrk, hnv, hkind, FlagSet.setFlag, FlagSet.setValue,
      isBoolFlagKind, adapterSet_bool_false]
    norm_num [adapterSet_bool_false]

/-- C3 (witness): the amended theorem applied to the concrete bool flag
`b` of `fsW3` with one following token. -/
theorem claim_C3_witness :
    FlagSet.parseOne 1 { fsW3 with args := ("-" ++ "b") :: ["extra"] } =
      some ((true, none),
        { fsW3 with args := ["extra"],
                    actual := setA fsW3.actual "b" flagW3,
                    store := storeSet fsW3.store flagW3.valueId (.vBool true) }) ∧
    FlagSet.parseOne 1 { fsW3 with args := ("-" ++ "b" ++ "=" ++ "false") :: ["extra"] } =
      some ((true, none),
        { fsW3 with args := ["extra"],
                    actual := setA fsW3.actual "b" flagW3,
                    store := storeSet fsW3.store flagW3.valueId (.vBool false) }) :=
  claim_C3_theorem fsW3 flagW3 "b" ["extra"] 0 (by decide) (by decide) (by decide) (by decide)
    (by decide) (by decide)

/-- C10 (counterexample): the claim says a bool-slice flag never consumes
the next token. For a bool-slice flag registered with the Greedy bit
(`fsC10cex`), parsing `-v x` consumes `x` (final positionals empty) and
appends `true` twice for the single match. -/
theorem claim_C10_counterexample :
    (fsC10cex.Parse 5 ["-v", "x"]).map (fun p => (p.1 == Outcome.normal, p.2.args, storeGet p.2.store 2)) =
      some (true, [], .vBoolSlice [true, true]) := by
  decide

/-- C10 (amended): for every flag resolved to a bool-slice adapter whose
behavioural bits include none of Greedy, Not-a-value and
Regex-key-is-value, each match appends `true` to the slice regardless of
any inline `=value` text (the value text is never parsed), and the
following tokens are never consumed. -/
theorem claim_C10_theorem (f : FlagSet) (flag : Flag) (name w : String) (rest : List String)
    (fuel : Nat) (xs : List Bool)
    (hget : f.getFlag name = (some flag, true, none))
    (hkind : flag.kind = .boolSliceK)
    (hg : flag.flags &&& GreedyMode = 0)
    (hnv : flag.flags &&& NotValue = 0)
    (hrk : flag.flags &&& RegexKeyIsValue = 0)
    (hplain : plainName name = true)
    (hcell : storeGet f.store flag.valueId = .vBoolSlice xs) :
    FlagSet.parseOne (fuel + 1) { f with args := ("-" ++ name) :: rest } =
      some ((true, none),
        { f with args := rest,
                 actual := setA f.actual name flag,
                 store := storeSet f.store flag.valueId (.vBoolSlice (xs ++ [true])) }) ∧
    FlagSet.parseOne (fuel + 1) { f with args := ("-" ++ name ++ "=" ++ w) :: rest } =
      some ((true, none),
        { f with args := rest,
                 actual := setA f.actual name flag,
                 store := storeSet f.store flag.valueId (.vBoolSlice (xs ++ [true])) }) := by
  constructor
  · unfold FlagSet.parseOne
    rw [getName_plain _ _ name rest hplain rfl]
    simp only [Bool.not_true, Bool.false_eq_true, if_false]
    rw [parseNameValue_plain name hplain]
    simp only [List.tail_cons]
    have hg2 : ({ f with args := rest } : FlagSet).getFlag name = (some flag, true, none) :=
      (getFlag_congr _ f name rfl rfl).trans hget
    rw [hg2]
    simp only [FlagSet.tryStep, hg, hrk, hnv, hkind, FlagSet.setFlag, FlagSet.setValue,
      isBoolFlagKind, hcell, adapterSet_boolSlice_true]
    norm_num [hcell, adapterSet_boolSlice_true]
  · unfold FlagSet.parseOne
    rw [getName_plainEq _ _ name w rest hplain rfl]
    simp only [Bool.not_true, Bool.false_eq_true, if_false]
    rw [parseNameValue_plainEq name w hplain]
    simp only [List.tail_cons]
    have hg2 : ({ f with args := rest } : FlagSet).getFlag name = (some flag, true, none) :=
      (getFlag_congr _ f name rfl rfl).trans hget
    rw [hg2]
    simp only [FlagSet.tryStep, hg, hrk, hnv, hkind, FlagSet.setFlag, FlagSet.setValue,
      isBoolFlagKind, hcell, adapterSet_boolSlice_true]
    norm_num [hcell, adapterSet_boolSlice_true]
    simp only [show (VKind.boolSliceK = VKind.boolK) = False from by simp, if_false]

/-- C10 (witness): the amended theorem applied to the concrete bool-slice
flag `v` of `fsW10`, with inline text `false` (still appends `true`). -/
theorem claim_C10_witness :
    FlagSet.parseOne 1 { fsW10 with args := ("-" ++ "v") :: ["extra"] } =
      some ((true, none),
        { fsW10 with args := ["extra"],
                     actual := setA fsW10.actual "v" flagW10,
                     store := storeSet fsW10.store flagW10.valueId (.vBoolSlice [true]) }) ∧
    FlagSet.parseOne 1 { fsW10 with args := ("-" ++ "v" ++ "=" ++ "false") :: ["extra"] } =
      some ((true, none),
        { fsW10 with args := ["extra"],
                     actual := setA fsW10.actual "v" flagW10,
                     store := storeSet fsW10.store flagW10.valueId (.vBoolSlice [true]) }) :=
  claim_C10_theorem fsW10 flagW10 "v" "false" ["extra"] 0 [] (by decide) (by decide) (by decide)
    (by decide) (by decide) (by decide) (by decide)


/-- C4: for every registered non-boolean value-taking flag (scalar or
slice adapter, none of the Greedy/Not-a-value/Regex-key bits), parsing
`-name=VALUE` and parsing `-name VALUE` produce identical parser states:
same bound variables, same seen-flag bookkeeping, same positional list
(stated as equality of the full `Parse` results, for any following
tokens). -/
theorem claim_C4_theorem (f : FlagSet) (flag : Flag) (name v : String) (rest : List String)
    (fuel : Nat)
    (hget : f.getFlag name = (some flag, true, none))
    (hb : flag.kind ≠ .boolK)
    (hbs : flag.kind ≠ .boolSliceK)
    (hg : flag.flags &&& GreedyMode = 0)
    (hnv : flag.flags &&& NotValue = 0)
    (hrk : flag.flags &&& RegexKeyIsValue = 0)
    (hplain : plainName name = true) :
    f.Parse (fuel + 2) (("-" ++ name ++ "=" ++ v) :: rest) =
      f.Parse (fuel + 2) (("-" ++ name) :: v :: rest) := by
  have hbool : isBoolFlagKind flag.kind = false := by
    simp only [isBoolFlagKind, beq_eq_false_iff_ne, ne_eq]
    exact hb
  have hbs2 : (flag.kind == VKind.boolSliceK) = false := by
    simp only [beq_eq_false_iff_ne, ne_eq]
    exact hbs
  have hg2 : ({ f with parsed := true, args := rest } : FlagSet).getFlag name =
      (some flag, true, none) := (getFlag_congr _ f name rfl rfl).trans hget
  have hg3 : ({ f with parsed := true, args := v :: rest } : FlagSet).getFlag name =
      (some flag, true, none) := (getFlag_congr _ f name rfl rfl).trans hget
  have h1 : FlagSet.parseOne (fuel + 1) { f with parsed := true, args := ("-" ++ name ++ "=" ++ v) :: rest } =
      some (({ f with parsed := true, args := rest } : FlagSet).setFlag flag name true v) := by
    unfold FlagSet.parseOne
    rw [getName_plainEq _ _ name v rest hplain rfl]
    simp only [Bool.not_true, Bool.false_eq_true, if_false]
    rw [parseNameValue_plainEq name v hplain]
    simp only [List.tail_cons]
    rw [hg2]
    simp only [FlagSet.tryStep, hg, hrk]
    norm_num
  have h2 : FlagSet.parseOne (fuel + 1) { f with parsed := true, args := ("-" ++ name) :: v :: rest } =
      some (({ f with parsed := true, args := v :: rest } : FlagSet).setFlag flag name false "") := by
    unfold FlagSet.parseOne
    rw [getName_plain _ _ name (v :: rest) hplain rfl]
    simp only [Bool.not_true, Bool.false_eq_true, if_false]
    rw [parseNameValue_plain name hplain]
    simp only [List.tail_cons]
    rw [hg3]
    simp only [FlagSet.tryStep, hg, hrk]
    norm_num
  have hsf : ({ f with parsed := true, args := v :: rest } : FlagSet).setFlag flag name false "" =
      ({ f with parsed := true, args := rest } : FlagSet).setFlag flag name true v := by
    unfold FlagSet.setFlag FlagSet.setValue
    simp only [hnv, hbool, hbs2]
    norm_num
  unfold FlagSet.Parse
  simp only [FlagSet.parseLoop]
  rw [h1, h2, hsf]

/-- C4 (witness): the two spellings agree on the concrete string flag
`file` of `fsW4`. -/
theorem claim_C4_witness :
    fsW4.Parse 2 [("-" ++ "file" ++ "=" ++ "out")] = fsW4.Parse 2 [("-" ++ "file"), "out"] :=
  claim_C4_theorem fsW4 flagW4 "file" "out" [] 0 (by decide) (by decide) (by decide) (by decide)
    (by decide) (by decide) (by decide)

/-- C5: a token of exactly `--` terminates flag scanning: the parse ends
normally, no later token is matched as a flag or consumed as a value (the
tables and the store are untouched), and all subsequent tokens appear
verbatim and in order as the tail of the positional-argument list. -/
theorem claim_C5_theorem (f : FlagSet) (ts : List String) (fuel : Nat) :
    f.Parse (fuel + 1) ("--" :: ts) =
      some (.normal, { f with parsed := true, args := f.unkownArgs ++ ts }) := by
  have hd : ("--" : String).data = ['-', '-'] := rfl
  unfold FlagSet.Parse FlagSet.parseLoop FlagSet.parseOne FlagSet.getName
  simp only [hd]
  norm_num

/-- C6: a non-boolean value-taking flag whose token is last and carries
no inline value is a missing-argument error: under the return-error
policy, Parse returns `flag needs an argument: -name` and the state keeps
only the previously accumulated positionals. -/
theorem claim_C6_theorem (f : FlagSet) (flag : Flag) (name : String) (fuel : Nat)
    (hget : f.getFlag name = (some flag, true, none))
    (hb : flag.kind ≠ .boolK)
    (hbs : flag.kind ≠ .boolSliceK)
    (hg : flag.flags &&& GreedyMode = 0)
    (hnv : flag.flags &&& NotValue = 0)
    (hrk : flag.flags &&& RegexKeyIsValue = 0)
    (hplain : plainName name = true)
    (heh : f.errorHandling = .ContinueOnError) :
    f.Parse (fuel + 2) [("-" ++ name)] =
      some (.errored (.msg ("flag needs an argument: -" ++ name)),
        { f with parsed := true, args := f.unkownArgs }) := by
  have hbool : isBoolFlagKind flag.kind = false := by
    simp only [isBoolFlagKind, beq_eq_false_iff_ne, ne_eq]
    exact hb
  have hbs2 : (flag.kind == VKind.boolSliceK) = false := by
    simp only [beq_eq_false_iff_ne, ne_eq]
    exact hbs
  have hg2 : ({ f with parsed := true, args := ([] : List String) } : FlagSet).getFlag name =
      (some flag, true, none) := (getFlag_congr _ f name rfl rfl).trans hget
  have h1 : FlagSet.parseOne (fuel + 1) { f with parsed := true, args := [("-" ++ name)] } =
      some ((false, some (.msg ("flag needs an argument: -" ++ name))),
        { f with parsed := true, args := ([] : List String) }) := by
    unfold FlagSet.parseOne
    rw [getName_plain _ _ name [] hplain rfl]
    simp only [Bool.not_true, Bool.false_eq_true, if_false]
    rw [parseNameValue_plain name hplain]
    simp only [List.tail_cons]
    rw [hg2]
    simp only [FlagSet.tryStep, hg, hrk, FlagSet.setFlag, FlagSet.setValue, hnv, hbool, hbs2,
      FlagSet.failf]
    norm_num
  unfold FlagSet.Parse
  simp only [FlagSet.parseLoop]
  rw [h1]
  simp only [Bool.false_eq_true, if_false, heh]
  norm_num

/-- C6 (witness): the missing-argument error on the concrete string flag
`file` of `fsW4`. -/
theorem claim_C6_witness :
    fsW4.Parse 2 [("-" ++ "file")] =
      some (.errored (.msg ("flag needs an argument: -" ++ "file")),
        { fsW4 with parsed := true, args := fsW4.unkownArgs }) :=
  claim_C6_theorem fsW4 flagW4 "file" 0 (by decide) (by decide) (by decide) (by decide)
    (by decide) (by decide) (by decide) (by decide)


/-- C1 (amended): during POSIX short-cluster resolution, a character
resolving to a value-taking (string) cluster-eligible flag with a
nonempty remainder takes the remainder as its glued value, but scanning
of the token CONTINUES with the following characters (each of which may
also resolve and be set); only when the character is last does the flag
consume the next argument (or fail with the missing-argument error), and
then the scan stops. -/
theorem claim_C1_theorem (f : FlagSet) (flag : Flag) (c : Char) (tail : List Char) (count : Nat)
    (hget : f.getFlag (String.mk [c]) = (some flag, true, none))
    (hpx : flag.flags &&& PosixShort ≠ 0)
    (hkind : flag.kind = .stringK)
    (hrk : flag.flags &&& RegexKeyIsValue = 0)
    (hnv : flag.flags &&& NotValue = 0) :
    (tail ≠ [] →
      f.posixLoop (c :: tail) count =
        ({ f with store := storeSet f.store flag.valueId (.vString (String.mk tail)),
                  actual := setA f.actual (String.mk [c]) flag } : FlagSet).posixLoop tail (count + 1))
    ∧ (f.args = [] →
      f.posixLoop [c] count =
        ((false, false, some (.msg ("flag needs an argument: -" ++ String.mk [c]))), f))
    ∧ (∀ a rest2, f.args = a :: rest2 →
      f.posixLoop [c] count =
        ((false, true, none),
          { f with args := rest2,
                   store := storeSet f.store flag.valueId (.vString a),
                   actual := setA f.actual (String.mk [c]) flag })) := by
  have hpx2 : (flag.flags &&& PosixShort == 0) = false := by
    simp only [beq_eq_false_iff_ne, ne_eq]
    exact hpx
  refine ⟨?_, ?_, ?_⟩
  · intro htail
    have hlen : (tail.length ≠ 0) := fun h0 => htail (List.length_eq_zero.mp h0)
    conv_lhs => unfold FlagSet.posixLoop
    simp only [hget, hpx2, Bool.false_eq_true, if_false, hkind, isBoolFlagKind, hrk,
      FlagSet.setFlag, FlagSet.setValue, hnv, adapterSet_string]
    norm_num [hlen]
    simp only [show (VKind.stringK = VKind.boolK) = False from by simp,
      show (VKind.stringK = VKind.boolSliceK) = False from by simp, if_false]
    norm_num

  · intro hargs
    conv_lhs => unfold FlagSet.posixLoop
    simp only [hget, hpx2, Bool.false_eq_true, if_false, hkind, isBoolFlagKind, hrk,
      FlagSet.setFlag, FlagSet.setValue, hnv, hargs, FlagSet.failf]
    norm_num
    simp only [show (VKind.stringK = VKind.boolK) = False from by simp,
      show (VKind.stringK = VKind.boolSliceK) = False from by simp, if_false]
    norm_num

  · intro a rest2 hargs
    conv_lhs => unfold FlagSet.posixLoop
    simp only [hget, hpx2, Bool.false_eq_true, if_false, hkind, isBoolFlagKind, hrk,
      FlagSet.setFlag, FlagSet.setValue, hnv, hargs, adapterSet_string]
    norm_num
    simp only [show (VKind.stringK = VKind.boolK) = False from by simp,
      show (VKind.stringK = VKind.boolSliceK) = False from by simp, if_false]
    norm_num

/-- C1 (counterexample): the claim says the cluster scan stops at a
value-taking flag. In `fsC1` (string flag `A`, bool flag `v`, both
cluster-eligible), parsing `-Av` assigns `A := "v"` AND also resolves the
later character, setting `v := true` — the claim predicts `v` untouched
(false). -/
theorem claim_C1_counterexample :
    (fsC1.Parse 5 ["-Av"]).map
        (fun p => (p.1 == Outcome.normal, storeGet p.2.store 2, storeGet p.2.store 3)) =
      some (true, .vString "v", .vBool true) := by
  decide

/-- C1 (witness): one glued-value step of the cluster scan of `-Av` on
the concrete `fsC1`, showing the scan continues with the remainder. -/
theorem claim_C1_witness :
    fsC1.posixLoop ['A', 'v'] 0 =
      ({ fsC1 with store := storeSet fsC1.store flagC1A.valueId (.vString (String.mk ['v'])),
                   actual := setA fsC1.actual (String.mk ['A']) flagC1A } : FlagSet).posixLoop ['v'] 1 :=
  (claim_C1_theorem fsC1 flagC1A 'A' ['v'] 0 (by decide) (by decide) (by decide) (by decide)
    (by decide)).1 (by decide)

/-- C7 (counterexample): with the plain flag `x` already registered
(`fsW7`), registering `x, ab` — whose individual alias `x` is already
present in the FlagSet — does NOT panic: the collision check is
per-table (aliases are only checked against the alias table, where `x`
does not appear). The claim as stated requires a panic here. -/
theorem claim_C7_counterexample :
    isOkE (fsW7.Var .stringK (.vString "") "x, ab") = true := by
  decide

/-- C7 (amended): for a comma-free name, registration panics exactly
when the name is already a key of the primary (`formal`) table and is
not one of the reserved names `h`, `help`, `V`, `version`; reserved
names are silently redefined. Collision checking is per-table, so a name
present only in the other table does not abort. In particular
registering `-x` twice panics and registering `-help` twice does not. -/
theorem claim_C7_theorem (f : FlagSet) (k : VKind) (dv : Val) (name : String)
    (hnc : name.data.contains ',' = false) :
    isOkE (f.Var k dv name) = (!(lookupA f.formal name).isSome || reservedName name) := by
  unfold FlagSet.Var
  simp only [newName, hnc, Bool.false_eq_true, if_false, FlagSet.allocCell]
  simp only [bind, Except.bind]
  cases h1 : (lookupA f.formal name).isSome with
  | false =>
    simp only [h1, Bool.false_eq_true, if_false, pure, Except.pure, isOkE, Bool.not_false,
      Bool.true_or]
  | true =>
    simp only [h1, if_true, FlagSet.alreadythereError]
    have hr : (name == "h" || name == "help" || name == "V" || name == "version") =
        reservedName name := rfl
    rw [hr]
    cases h2 : reservedName name with
    | true =>
      simp only [if_true, pure, Except.pure, isOkE, Bool.not_true, Bool.false_or]
    | false =>
      simp only [Bool.false_eq_true, if_false, Bool.not_true, Bool.false_or]
      cases hn : f.name == "" with
      | true => simp only [hn, if_true, pure, Except.pure, isOkE]
      | false => simp only [hn, Bool.false_eq_true, if_false, pure, Except.pure, isOkE]

/-- C7 (witness): the amended theorem at the concrete sets: duplicate
`x` panics, duplicate `help` does not. -/
theorem claim_C7_witness :
    isOkE (fsW7.Var .stringK (.vString "") "x") = false ∧
    isOkE (fsW7help.Var .boolK (.vBool false) "help") = true := by
  constructor
  · rw [claim_C7_theorem fsW7 .stringK (.vString "") "x" (by decide)]
    decide
  · rw [claim_C7_theorem fsW7help .boolK (.vBool false) "help" (by decide)]
    decide

/-- C8: finalising a flag whose bitmask has both PosixShort and
GreedyMode set always panics in `flagVar`, regardless of the FlagSet's
error-handling policy (the FlagSet, and hence its policy, is
arbitrary). -/
theorem claim_C8_theorem (f : FlagSet) (flag : Flag)
    (hp : flag.flags &&& PosixShort ≠ 0) (hg : flag.flags &&& GreedyMode ≠ 0) :
    f.flagVar flag = .error "Cannot set both PosixShort and GreedyMode" := by
  unfold FlagSet.flagVar
  have hc : (decide (flag.flags &&& PosixShort > 0) && decide (flag.flags &&& GreedyMode > 0)) = true := by
    simp only [Bool.and_eq_true, decide_eq_true_eq]
    exact ⟨Nat.pos_of_ne_zero hp, Nat.pos_of_ne_zero hg⟩
  simp only [hc, if_true, throw, throwThe, MonadExceptOf.throw, bind, Except.bind]

/-- C8 (witness): the panic fires on a concrete flag with both bits,
under the ExitOnError policy. -/
theorem claim_C8_witness :
    (FlagSet.base "w" .ExitOnError).flagVar
        { name := "z", flags := PosixShort ||| GreedyMode, kind := .stringSliceK, valueId := 0,
          matchValue := none } =
      .error "Cannot set both PosixShort and GreedyMode" :=
  claim_C8_theorem (FlagSet.base "w" .ExitOnError)
    { name := "z", flags := PosixShort ||| GreedyMode, kind := .stringSliceK, valueId := 0,
      matchValue := none } (by decide) (by decide)

/-- C9 (counterexample): the string-slice adapter does not round-trip:
its rendered default for `["a"]` is the JSON text `["a"]`, and feeding
that back through `Set` appends it as one element, giving
`["a", "[\"a\"]"]` rather than reproducing the default. -/
theorem claim_C9_counterexample :
    adapterSet .stringSliceK (.vStringSlice ["a"])
        (adapterString .stringSliceK (.vStringSlice ["a"])) ≠
      (.vStringSlice ["a"], none) := by
  decide

/-- C9 (amended): the round-trip law holds for the boolean and string
scalar adapters — feeding the rendered default text back through the
same adapter's `Set` reproduces the default value — while the slice
adapters do not round-trip (their `String` renders a JSON array but
their `Set` parses a single element and appends it). -/
theorem claim_C9_theorem :
    (∀ b : Bool, adapterSet .boolK (.vBool b) (adapterString .boolK (.vBool b)) = (.vBool b, none)) ∧
    (∀ s : String, adapterSet .stringK (.vString s) (adapterString .stringK (.vString s)) = (.vString s, none)) := by
  constructor
  · intro b
    cases b <;> rfl
  · intro s
    rfl

/-- One pending-value application in the greedy loop: `setFlag` with the
empty name appends the pending value to `H` and re-records the flag under
the empty name. -/
theorem c2_setFlag_pending (acc rest : List String) (w : String) :
    (c2mid acc rest).setFlag flagC2H "" true w = ((true, none), c2mid (acc ++ [w]) rest) := by
  have h1 : (flagC2H.flags &&& NotValue > 0) = False := eq_false (by decide)
  have h2 : isBoolFlagKind flagC2H.kind = false := by decide
  have h3 : (flagC2H.kind == VKind.boolSliceK) = false := by decide
  have h4 : storeGet (c2mid acc rest).store flagC2H.valueId = .vStringSlice acc := rfl
  have h5 : adapterSet flagC2H.kind (Val.vStringSlice acc) w = (.vStringSlice (acc ++ [w]), none) :=
    adapterSet_stringSlice acc w
  unfold FlagSet.setFlag FlagSet.setValue
  simp only [h1, if_false, h2, Bool.false_eq_true, h3, Bool.not_true, h4, h5]
  rfl

/-- `getName` on a well-formed double-dash token `--name`. -/
theorem getName_plain2 (f : FlagSet) (flags : Flags) (name : String) (rest : List String)
    (hp : plainName name = true) (hargs : f.args = ("--" ++ name) :: rest) :
    f.getName flags =
      { next := true, seen := true, err := none, numMinuses := 2, name := name, fs := f } := by
  have hd : ("--" ++ name).data = '-' :: '-' :: name.data := by
    rw [String.data_append]; rfl
  simp only [plainName, Bool.and_eq_true, Bool.not_eq_true'] at hp
  obtain ⟨⟨⟨h1, h2⟩, h3⟩, h4⟩ := hp
  obtain ⟨c, t, hD⟩ : ∃ c t, name.data = c :: t := by
    cases hE : name.data with
    | nil => rw [hE] at h1; exact absurd h1 (by decide)
    | cons a b => exact ⟨a, b, rfl⟩
  rw [hD] at h2 h3
  simp only [List.head?_cons, bne_iff_ne, ne_eq, Option.some.injEq] at h2 h3
  have c1 : (decide (("--" ++ name).data.length < 2) || ("--" ++ name).data.head? != some '-') = false := by
    rw [hd, hD]
    simp only [List.length_cons, List.head?_cons, Bool.or_eq_false_iff,
      decide_eq_false_iff_not, bne_self_eq_false, and_true]
    omega
  have c2 : ("--" ++ name).data.get? 1 = some '-' ↔ True := by
    rw [hd]
    simp only [List.get?_cons_succ, List.get?_cons_zero, iff_true]
  have c2b : (("--" ++ name).data.length = 2) ↔ False := by
    rw [hd, hD]
    simp only [List.length_cons, iff_false]
    omega
  have c3 : (decide ((String.mk (("--" ++ name).data.drop 2)).data.length = 0) ||
      decide ((String.mk (("--" ++ name).data.drop 2)).data.head? = some '-') ||
      decide ((String.mk (("--" ++ name).data.drop 2)).data.head? = some '=')) = false := by
    rw [hd, hD]
    simp only [List.drop_succ_cons, List.drop_zero, String.mk]
    simp only [List.length_cons, List.head?_cons, Bool.or_eq_false_iff, decide_eq_false_iff_not,
      Option.some.injEq]
    exact ⟨⟨by omega, h2⟩, h3⟩
  unfold FlagSet.getName
  rw [hargs]
  simp only [c1, Bool.false_eq_true, if_false, c2, eq_iff_iff, iff_true, if_true, c2b, iff_false,
    c3]
  have heta : ({ data := List.drop 2 ("--" ++ name).data } : String) = name := by
    rw [hd]
    rfl
  rw [heta]

/-- Resolution of the `other` flag in any state sharing the tables of
`fsC2`. -/
theorem c2_getFlag_other (g : FlagSet) (h1 : g.formal = fsC2.formal)
    (h2 : g.shortLong = fsC2.shortLong) :
    g.getFlag "other" = (some flagC2Other, true, none) :=
  (getFlag_congr g fsC2 "other" h1 h2).trans (by decide)

/-- The final `setFlag` of the `--other` bool flag after the greedy run. -/
theorem c2_setFlag_other (acc : List String) :
    (c2mid acc []).setFlag flagC2Other "other" false "" = ((true, none), c2post acc) := by
  have h1 : (flagC2Other.flags &&& NotValue > 0) = False := eq_false (by decide)
  have h2 : isBoolFlagKind flagC2Other.kind = true := by decide
  have h4 : adapterSet flagC2Other.kind
      (storeGet (c2mid acc []).store flagC2Other.valueId) "true" = (.vBool true, none) := rfl
  unfold FlagSet.setFlag FlagSet.setValue
  simp only [h1, if_false, h2, if_true, Bool.not_false, h4]
  rfl


/-- The first greedy iteration: with no inline value, `setFlag` consumes
the argument immediately following `-H` — whatever it looks like — as the
first appended value. -/
theorem c2_setFlag_first (v : String) (rest2 : List String) :
    ({ fsC2 with parsed := true, args := v :: rest2 } : FlagSet).setFlag flagC2H "" false "" =
      ((true, none), c2mid [v] rest2) := by
  have h1 : (flagC2H.flags &&& NotValue > 0) = False := eq_false (by decide)
  have h2 : isBoolFlagKind flagC2H.kind = false := by decide
  have h3 : (flagC2H.kind == VKind.boolSliceK) = false := by decide
  have h4 : storeGet fsC2.store flagC2H.valueId = .vStringSlice [] := by decide
  have h5 : adapterSet flagC2H.kind (Val.vStringSlice []) v = (.vStringSlice [v], none) :=
    adapterSet_stringSlice [] v
  unfold FlagSet.setFlag FlagSet.setValue
  simp only [h1, if_false, h2, Bool.false_eq_true, h3, Bool.not_true, Bool.not_false, if_true]
  simp only [h4, h5]
  rfl

/-- The greedy consumption loop of `tryStep`, from just before a loop
iteration whose `setFlag` lands in the state `c2mid acc (vs ++ ["--other"])`:
every bare token of `vs` is consumed and appended as its own value, and the
first dash-led token `--other` ends the loop and is matched as a flag. -/
theorem c2iter (vs : List String) :
    ∀ (st : FlagSet) (acc : List String) (hv : Bool) (w vtext : String) (fuel : Nat),
    (∀ x ∈ vs, isBareTok x = true) →
    st.args.isEmpty = false →
    st.setFlag flagC2H "" hv vtext = ((true, none), c2mid acc (vs ++ ["--other"])) →
    FlagSet.tryStep (vs.length + fuel + 2) st flagC2H w hv vtext =
      some ((true, none), c2post (acc ++ vs)) := by
  induction vs with
  | nil =>
    intro st acc hv w vtext fuel _ hne hsf
    have hlen : ([] : List String).length + fuel + 2 = fuel + 2 := by simp
    rw [hlen]
    conv_lhs => unfold FlagSet.tryStep
    have hco : (flagC2H.flags &&& GreedyMode > 0 && !st.args.isEmpty) = true := by
      rw [hne]; rfl
    rw [hco]
    simp only [if_true]
    simp only [List.nil_append] at hsf
    simp only [hsf,
      getName_plain2 (c2mid acc ["--other"]) GreedyMode "other" [] (by decide) rfl,
      parseNameValue_plain "other" (by decide),
      c2_getFlag_other (c2mid acc ["--other"]) rfl rfl,
      Bool.not_true, Bool.false_eq_true, if_false, if_true]
    have hst : ({ c2mid acc ["--other"] with
        args := (c2mid acc ["--other"]).args.tail } : FlagSet) = c2mid acc [] := rfl
    rw [hst]
    conv_lhs => unfold FlagSet.tryStep
    have hco2 : (flagC2Other.flags &&& GreedyMode > 0 && !(c2mid acc []).args.isEmpty) = false := rfl
    rw [hco2]
    simp only [Bool.false_eq_true, if_false]
    have hrk2 : (flagC2Other.flags &&& RegexKeyIsValue > 0) = False := eq_false (by decide)
    simp only [hrk2, if_false]
    rw [c2_setFlag_other acc]
    simp only [List.append_nil]
  | cons x xs ih =>
    intro st acc hv w vtext fuel hb hne hsf
    have hbx : isBareTok x = true := hb x (by simp)
    have hbxs : ∀ y ∈ xs, isBareTok y = true := fun y hy => hb y (by simp [hy])
    have hfuel : (x :: xs).length + fuel + 2 = (xs.length + fuel + 2) + 1 := by
      simp only [List.length_cons]
      omega
    rw [hfuel]
    conv_lhs => unfold FlagSet.tryStep
    have hco : (flagC2H.flags &&& GreedyMode > 0 && !st.args.isEmpty) = true := by
      rw [hne]; rfl
    rw [hco]
    simp only [if_true]
    have hrest : (x :: xs) ++ ["--other"] = x :: (xs ++ ["--other"]) := rfl
    rw [hrest] at hsf
    simp only [hsf,
      getName_bare_greedy (c2mid acc (x :: (xs ++ ["--other"]))) x (xs ++ ["--other"]) hbx rfl,
      Bool.not_true, Bool.false_eq_true, if_false]
    have hst : ({ c2mid acc (x :: (xs ++ ["--other"])) with
        args := xs ++ ["--other"] } : FlagSet) = c2mid acc (xs ++ ["--other"]) := rfl
    rw [hst]
    have hne2 : (c2mid acc (xs ++ ["--other"])).args.isEmpty = false := by
      show (xs ++ ["--other"]).isEmpty = false
      cases xs <;> rfl
    rw [ih (c2mid acc (xs ++ ["--other"])) (acc ++ [x]) true x x fuel hbxs hne2
      (c2_setFlag_pending acc (xs ++ ["--other"]) x)]
    simp only [List.append_assoc, List.singleton_append]

/-- C2 (amended): for the greedy string-slice flag `H`, the token
following `-H` is always consumed as the first value (even a token that
would resolve to a flag — see the counterexample); every following bare
token is appended as a separate value; and the first dash-led token ends
the consumption and is matched as a flag. In particular
`-H x y z --other` collects exactly `["x","y","z"]` for `H` and matches
`--other`, leaving no positionals. -/
theorem claim_C2_theorem (v : String) (vs : List String)
    (hb : ∀ x ∈ vs, isBareTok x = true) :
    fsC2.Parse (vs.length + 5) (("-H" :: v :: vs) ++ ["--other"]) =
      some (.normal, c2post (v :: vs)) := by
  have hpo : FlagSet.parseOne (vs.length + 4)
      ({ fsC2 with parsed := true, args := "-H" :: (v :: (vs ++ ["--other"])) } : FlagSet) =
      some ((true, none), c2post (v :: vs)) := by
    unfold FlagSet.parseOne
    rw [getName_plain _ 0 "H" (v :: (vs ++ ["--other"])) (by decide) rfl]
    simp only [Bool.not_true, Bool.false_eq_true, if_false]
    rw [parseNameValue_plain "H" (by decide)]
    simp only [List.tail_cons]
    have hgH : ({ fsC2 with parsed := true, args := v :: (vs ++ ["--other"]) } : FlagSet).getFlag "H" =
        (some flagC2H, true, none) := (getFlag_congr _ fsC2 "H" rfl rfl).trans (by decide)
    simp only [hgH]
    exact c2iter vs ({ fsC2 with parsed := true, args := v :: (vs ++ ["--other"]) } : FlagSet)
      [v] false "H" "" 2 hb rfl (c2_setFlag_first v (vs ++ ["--other"]))
  have hpo2 : FlagSet.parseOne (vs.length + 3) (c2post (v :: vs)) =
      some ((false, none), c2post (v :: vs)) := rfl
  unfold FlagSet.Parse
  have hlist : ("-H" :: v :: vs) ++ ["--other"] = "-H" :: (v :: (vs ++ ["--other"])) := rfl
  rw [hlist]
  have hf1 : vs.length + 5 = (vs.length + 4) + 1 := rfl
  rw [hf1]
  conv_lhs => unfold FlagSet.parseLoop
  simp only [hpo, if_true]
  have hf2 : vs.length + 4 = (vs.length + 3) + 1 := rfl
  rw [hf2]
  conv_lhs => unfold FlagSet.parseLoop
  simp only [hpo2, Bool.false_eq_true, if_false]
  rfl

/-- C2 (witness): the amended theorem at `-H x y z --other`. -/
theorem claim_C2_witness :
    fsC2.Parse 7 (("-H" :: "x" :: ["y", "z"]) ++ ["--other"]) =
      some (.normal, c2post ["x", "y", "z"]) :=
  claim_C2_theorem "x" ["y", "z"] (by decide)

/-- C2 (counterexample): the claim says greedy consumption stops at the
next token that resolves to a recognized flag, predicting that
`-H --other` collects nothing and sets `other`. The code consumes the
first following token unconditionally: `H` collects `["--other"]` and
`other` stays false. -/
theorem claim_C2_counterexample :
    (fsC2.Parse 6 ["-H", "--other"]).map
        (fun p => (p.1 == Outcome.normal, storeGet p.2.store 2, storeGet p.2.store 3)) =
      some (true, .vStringSlice ["--other"], .vBool false) := by
  decide

end GoFlag
